import Mathlib

/-!
# Flow locker (backend/flow_api/flow_locker/redis.go)

A shallow embedding of `RedisLocker`: the constructor `NewRedisLocker`, the method `Lock`
and the release closure it returns.  The Go code is stateful; here every effectful call
takes the world state and returns the new one.  The redsync library and the store behind
it are not part of the source file: `Lock` is written against an interface record
(`Redsync`), and a concrete single-instance store is given further down.
-/

namespace FlowLocker

/-! ## Durations, errors, contexts -/

/-- Go `time.Duration`: a signed count of nanoseconds. -/
abbrev Duration := Int

/-- Go `time.Second`. -/
def Second : Duration := 1000000000

/-- Go `time.Millisecond`. -/
def Millisecond : Duration := 1000000

/-- Go `error` values that occur around the locker.  `wrap` and `wrapNil` are the two
shapes `fmt.Errorf("...%w", err)` produces (operand non-nil / nil). -/
inductive Error where
  | canceled
  | deadlineExceeded
  | errFailed
  | storeUnavailable
  | invalidExpire
  | lockAlreadyExpired
  | other (msg : String)
  | wrap (msg : String) (inner : Error)
  | wrapNil (msg : String)
deriving DecidableEq, Repr

/-- Go `fmt.Errorf(format ++ "%w", err)` where `format` is the text before the verb. -/
def Errorf (format : String) (err : Option Error) : Error :=
  match err with
  | some e => Error.wrap format e
  | none => Error.wrapNil format

/-- Go `err.Error()`: the message of an error. -/
def Error.message : Error → String
  | .canceled => "context canceled"
  | .deadlineExceeded => "context deadline exceeded"
  | .errFailed => "redsync: failed to acquire lock"
  | .storeUnavailable => "store unavailable"
  | .invalidExpire => "ERR invalid expire time"
  | .lockAlreadyExpired => "redsync: failed to unlock, lock was already expired"
  | .other msg => msg
  | .wrap msg inner => msg ++ inner.message
  | .wrapNil msg => msg ++ "%!w(<nil>)"

/-- Go `errors.Unwrap(err)`. -/
def Error.unwrap : Error → Option Error
  | .wrap _ inner => some inner
  | _ => none

/-- Go `context.Context`, as far as the locker uses it: the `Err()` method, which reads
the current state of the world (a context may become canceled over time). -/
structure Context (σ : Type) where
  Err : σ → Option Error

/-! ## Flow identifiers -/

/-- Go `uuid.UUID`, a `[16]byte`. -/
structure UUID where
  bytes : List (Fin 256)
  size : bytes.length = 16

/-- Go `encoding/hex`: the digit table. -/
def hextable : List Char := "0123456789abcdef".toList

/-- One hexadecimal digit. -/
def hexDigit (n : Nat) : Char := hextable.getD n '0'

/-- Go `hex.Encode`: two lower-case digits per byte, high nibble first. -/
def hexEncode : List (Fin 256) → List Char
  | [] => []
  | v :: rest => hexDigit (v.val / 16) :: hexDigit (v.val % 16) :: hexEncode rest

/-- Go slice expression `u[lo:hi]`. -/
def slice (l : List (Fin 256)) (lo hi : Nat) : List (Fin 256) := (l.drop lo).take (hi - lo)

/-- Modelled from the spec: the canonical string form of the flow identifier
(`uuid.UUID.String` of the imported uuid package, not under src/): the 16 bytes in
lower-case hexadecimal, grouped 8-4-4-4-12 with dashes. -/
def UUID.String (u : UUID) : String :=
  String.mk (hexEncode (slice u.bytes 0 4) ++ '-' :: (hexEncode (slice u.bytes 4 6) ++ '-' ::
    (hexEncode (slice u.bytes 6 8) ++ '-' :: (hexEncode (slice u.bytes 8 10) ++ '-' ::
      hexEncode (u.bytes.drop 10)))))

/-! ## The redsync interface -/

/-- Go `redsync.Option` values the locker passes to `NewMutex`. -/
inductive MutexOption where
  | WithExpiry (expiry : Duration)
  | WithTries (tries : Int)
deriving DecidableEq, Repr

/-- Go `*redsync.Mutex`: a pointer; the object lives in the world state. -/
abbrev MutexRef := Nat

/-- Go `*redsync.Redsync` as the locker sees it: the three methods it calls.  Each one
may read and change the world. -/
structure Redsync (σ : Type) where
  NewMutex : String → List MutexOption → σ → MutexRef × σ
  LockContext : Context σ → MutexRef → σ → Option Error × σ
  UnlockContext : Context σ → MutexRef → σ → (Bool × Option Error) × σ

/-- The connection pool `NewRedisLocker` builds (address and password of the dial). -/
structure Pool where
  address : String
  password : String
deriving DecidableEq, Repr

/-! ## The locker -/

/-- Go `RedisLocker`. -/
structure RedisLocker (σ : Type) where
  rs : Redsync σ
  expiry : Duration

/-- Go `RedisLockerConfig`. -/
structure RedisLockerConfig where
  Address : String
  Password : String
  Expiry : Duration
deriving DecidableEq, Repr

/-- Go `NewRedisLocker`.  `redsyncNew` stands for `redsync.New(redigo.NewPool(pool))`. -/
def NewRedisLocker {σ : Type} (redsyncNew : Pool → Redsync σ) (config : RedisLockerConfig) :
    RedisLocker σ :=
  let config := if config.Expiry = 0 then { config with Expiry := 15 * Second } else config
  let pool : Pool := { address := config.Address, password := config.Password }
  let rs := redsyncNew pool
  { rs := rs, expiry := config.Expiry }

/-- The release handle type: Go `func(context.Context) error`. -/
abbrev Release (σ : Type) := Context σ → σ → Option Error × σ

/-- The closure `unlock` built in `Lock`; it captures the mutex pointer only. -/
def unlockClosure {σ : Type} (rs : Redsync σ) (mutex : MutexRef) : Release σ :=
  fun ctx s =>
    match rs.UnlockContext ctx mutex s with
    | ((ok, err), s1) =>
      if !ok || err.isSome then (some (Errorf "failed to release lock: " err), s1)
      else (none, s1)

/-- The store key `Lock` asks the mutex for. -/
def resourceName (flowID : UUID) : String := "flow:lock:" ++ flowID.String

/-- Go `(*RedisLocker).Lock`. -/
def RedisLocker.Lock {σ : Type} (r : RedisLocker σ) (ctx : Context σ) (flowID : UUID) (s : σ) :
    (Option (Release σ) × Option Error) × σ :=
  match ctx.Err s with
  | some err => ((none, some (Errorf "context error: " (some err))), s)
  | none =>
    match r.rs.NewMutex ("flow:lock:" ++ flowID.String)
        [MutexOption.WithExpiry r.expiry, MutexOption.WithTries 1] s with
    | (mutex, s1) =>
      match r.rs.LockContext ctx mutex s1 with
      | (some err, s2) => ((none, some err), s2)
      | (none, s2) => ((some (unlockClosure r.rs mutex), none), s2)

/-! ## A store instance and the redsync mutex over it

`NewRedisLocker` hands exactly one pool to `redsync.New`, so the quorum is one instance
out of one.  The store adapter and the mutex protocol live outside the source file; the
definitions of this section follow sections 2, 4 and 6 of the specification, and the
redsync package where the specification is silent or at odds with itself (a TTL below
one millisecond, a release on a key that is already absent).  Calls are sequential and
take no time; time passes only between calls. -/

/-- The lock token: an opaque unique value; tokens are numbered in order of generation. -/
abbrev Token := Nat

/-- A lease in the store: the token stored under a key and the instant it expires. -/
structure Lease where
  value : Token
  expiresAt : Int
deriving DecidableEq, Repr

/-- A call made on the store adapter. -/
inductive StoreOp where
  | trySet (key : String) (value : Token) (ttl : Duration)
  | tryDelete (key : String) (expected : Option Token)
deriving DecidableEq, Repr

/-- The fields of a redsync mutex object the protocol uses; `value` is unset until a
successful lock. -/
structure Mutex where
  name : String
  expiry : Duration
  tries : Int
  value : Option Token
deriving DecidableEq, Repr

/-- The world the single-instance locker runs in: clock, store content, reachability of
the store, token counter, heap of mutex objects, contexts that are done (with their
`Err()` value) and the log of adapter calls (newest first). -/
structure World where
  now : Int
  leases : List (String × Lease)
  reachable : Bool
  minted : Nat
  mutexes : List Mutex
  done : List (Nat × Error)
  log : List StoreOp
deriving DecidableEq, Repr

/-- The world before anything happened: empty store, reachable, at time 0. -/
def World.empty : World :=
  { now := 0, leases := [], reachable := true, minted := 0, mutexes := [], done := [], log := [] }

/-- The lease stored under a key, if any. -/
def getLease (key : String) : List (String × Lease) → Option Lease
  | [] => none
  | (k, l) :: rest => if k = key then some l else getLease key rest

/-- Remove a key from the store content. -/
def eraseLease (key : String) : List (String × Lease) → List (String × Lease)
  | [] => []
  | (k, l) :: rest => if k = key then eraseLease key rest else (k, l) :: eraseLease key rest

/-- Store a lease under a key, replacing what was there. -/
def putLease (key : String) (l : Lease) (ls : List (String × Lease)) : List (String × Lease) :=
  (key, l) :: eraseLease key ls

/-- The live (non-expired) lease under a key: the store discards a lease once its TTL has
elapsed. -/
def liveLease (now : Int) (leases : List (String × Lease)) (key : String) : Option Lease :=
  match getLease key leases with
  | some l => if now < l.expiresAt then some l else none
  | none => none

/-- Modelled from the spec: the store adapter operation `trySet(key, value, ttl)` (the
adapter is not under src/): atomic, succeeds only if the key is absent; an unreachable
instance answers with a store-level error, and so does the store when the TTL is below
one millisecond (it counts TTLs in milliseconds and refuses one that is not positive). -/
def trySet (key : String) (value : Token) (ttl : Duration) (w : World) :
    (Bool × Option Error) × World :=
  let w1 := { w with log := StoreOp.trySet key value ttl :: w.log }
  if w.reachable then
    if ttl < Millisecond then ((false, some Error.invalidExpire), w1)
    else
      match liveLease w.now w.leases key with
      | some _ => ((false, none), w1)
      | none => ((true, none), { w1 with leases := putLease key ⟨value, w.now + ttl⟩ w.leases })
  else ((false, some Error.storeUnavailable), w1)

/-- Modelled from the spec: the store adapter operation `tryDelete(key, expectedValue)`
(the adapter is not under src/): atomic, succeeds only if the current value equals the
expected value; "condition not met" is a `false` outcome, not an error. -/
def tryDelete (key : String) (expected : Option Token) (w : World) :
    (Bool × Option Error) × World :=
  let w1 := { w with log := StoreOp.tryDelete key expected :: w.log }
  if w.reachable then
    match liveLease w.now w.leases key with
    | some l =>
      if some l.value = expected then ((true, none), { w1 with leases := eraseLease key w.leases })
      else ((false, none), w1)
    | none => ((false, none), w1)
  else ((false, some Error.storeUnavailable), w1)

/-- Lookup in the table of contexts that are done. -/
def getDone (c : Nat) : List (Nat × Error) → Option Error
  | [] => none
  | (k, e) :: rest => if k = c then some e else getDone c rest

/-- The context with number `c`: its `Err()` reads the table of done contexts. -/
def ctxRef (c : Nat) : Context World := { Err := fun w => getDone c w.done }

/-- Canceling (or timing out) a context: the first error sticks. -/
def cancelCtx (c : Nat) (e : Error) (w : World) : World :=
  match getDone c w.done with
  | some _ => w
  | none => { w with done := (c, e) :: w.done }

/-- Modelled from the spec: one per-instance acquire of the mutex protocol (redsync is
not under src/): respects the cancellation context, then calls `trySet`. -/
def acquire (ctx : Context World) (name : String) (value : Token) (expiry : Duration)
    (w : World) : (Bool × Option Error) × World :=
  match ctx.Err w with
  | some e => ((false, some e), w)
  | none => trySet name value expiry w

/-- Modelled from the spec: one per-instance release of the mutex protocol (redsync is
not under src/): respects the cancellation context, then calls `tryDelete`.  The
sections of the specification disagree on a key that is already absent (4.2 calls it as
good as released, 2 and 6 let `tryDelete` fail on it); this follows the redsync package:
nothing is confirmed as deleted, and its lock-already-expired error is reported. -/
def release (ctx : Context World) (name : String) (value : Option Token) (w : World) :
    (Bool × Option Error) × World :=
  match ctx.Err w with
  | some e => ((false, some e), w)
  | none =>
    if w.reachable = true ∧ liveLease w.now w.leases name = none then
      ((false, some Error.lockAlreadyExpired), (tryDelete name value w).2)
    else tryDelete name value w

/-- Modelled from the spec: the acquisition attempts of section 4.1 for one store
instance (redsync is not under src/).  An attempt succeeds when the write succeeded on
the quorum (one of one) and the elapsed time (zero here) is less than the lease duration
minus the safety margin; a failed attempt deletes the token where it was written; after
the last attempt the instance error, or else the lock-acquisition-failed error, is
returned. -/
def lockLoop (margin : Duration) (ctx : Context World) (name : String) (expiry : Duration)
    (value : Token) : Nat → World → Option Error × World
  | 0, w => (some Error.errFailed, w)
  | n + 1, w =>
    match acquire ctx name value expiry w with
    | ((ok, err), w1) =>
      if ok = true ∧ 0 < expiry - margin then (none, w1)
      else
        let w2 := if ok then (release ctx name (some value) w1).2 else w1
        if n = 0 ∧ err.isSome then (err, w2) else lockLoop margin ctx name expiry value n w2

/-- One option applied to a mutex under construction. -/
def applyOption (m : Mutex) : MutexOption → Mutex
  | .WithExpiry expiry => { m with expiry := expiry }
  | .WithTries tries => { m with tries := tries }

/-- Modelled from the spec: `NewMutex` of the redsync package (not under src/): a mutex
object for the resource name with the options applied over the package defaults,
allocated in the heap; nothing is sent to the store. -/
def storeNewMutex (name : String) (opts : List MutexOption) (w : World) : MutexRef × World :=
  let m := opts.foldl applyOption { name := name, expiry := 8 * Second, tries := 32, value := none }
  (w.mutexes.length, { w with mutexes := w.mutexes ++ [m] })

/-- Modelled from the spec: `LockContext` of the redsync package (not under src/): a
fresh token is generated, the attempts run, and on success the mutex remembers the token. -/
def storeLockContext (margin : Duration) (ctx : Context World) (m : MutexRef) (w : World) :
    Option Error × World :=
  match w.mutexes[m]? with
  | none => (some (Error.other "nil mutex"), w)
  | some mu =>
    let value := w.minted
    match lockLoop margin ctx mu.name mu.expiry value mu.tries.toNat
        { w with minted := w.minted + 1 } with
    | (none, w1) => (none, { w1 with mutexes := w1.mutexes.set m { mu with value := some value } })
    | (some e, w1) => (some e, w1)

/-- Modelled from the spec: `UnlockContext` of the redsync package (not under src/):
compare-and-delete of the mutex's token on the instance; `ok` reports whether the quorum
(one of one) confirmed the deletion, and the instance error is passed on when it did not
(on a key that is already absent: ok = false with the lock-already-expired error). -/
def storeUnlockContext (ctx : Context World) (m : MutexRef) (w : World) :
    (Bool × Option Error) × World :=
  match w.mutexes[m]? with
  | none => ((false, some (Error.other "nil mutex")), w)
  | some mu =>
    match release ctx mu.name mu.value w with
    | ((ok, err), w1) => if ok then ((true, none), w1) else ((false, err), w1)

/-- The redsync handle over the single store instance; `margin` is the safety margin
(drift tolerance) of the acquisition check. -/
def storeRedsync (margin : Duration) : Redsync World :=
  { NewMutex := storeNewMutex
    LockContext := storeLockContext margin
    UnlockContext := storeUnlockContext }

/-- A locker over the store, built by `NewRedisLocker`. -/
def storeLocker (margin : Duration) (config : RedisLockerConfig) : RedisLocker World :=
  NewRedisLocker (fun _ => storeRedsync margin) config

/-- The `trySet` calls recorded in a log, as (key, token, ttl). -/
def setsOf : List StoreOp → List (String × Token × Duration)
  | [] => []
  | StoreOp.trySet key value ttl :: rest => (key, value, ttl) :: setsOf rest
  | StoreOp.tryDelete _ _ :: rest => setsOf rest

/-! ## Interleavings -/

/-- What callers and the environment can do to the world. -/
inductive Event where
  | lock (config : RedisLockerConfig) (ctx : Nat) (flowID : UUID)
  | release (mutex : MutexRef) (ctx : Nat)
  | tick (d : Nat)
  | cancel (ctx : Nat) (e : Error)
  | reach (up : Bool)

/-- One event: a caller locks through some locker, a caller invokes the release handle
of a mutex, time passes, a context is canceled, the store goes down or comes back. -/
def step (margin : Duration) (e : Event) (w : World) : World :=
  match e with
  | .lock config ctx flowID => ((storeLocker margin config).Lock (ctxRef ctx) flowID w).2
  | .release mutex ctx => (unlockClosure (storeRedsync margin) mutex (ctxRef ctx) w).2
  | .tick d => { w with now := w.now + d }
  | .cancel ctx e => cancelCtx ctx e w
  | .reach up => { w with reachable := up }

/-- A sequence of events, earliest first. -/
def run (margin : Duration) (evs : List Event) (w : World) : World :=
  evs.foldl (fun w e => step margin e w) w

/-- An event that is an invocation of the release handle of the given mutex. -/
def Event.releases (mutex : MutexRef) : Event → Bool
  | .release m _ => m = mutex
  | _ => false

/-- Sample flow identifier: all bytes zero. -/
def uuidZero : UUID := { bytes := List.replicate 16 0, size := by decide }

/-- Sample flow identifier: first byte 1, the rest zero. -/
def uuidOne : UUID := { bytes := 1 :: List.replicate 15 0, size := by decide }

/-- Sample configuration with the given lease duration. -/
def sampleConfig (expiry : Duration) : RedisLockerConfig :=
  { Address := "localhost:6379", Password := "", Expiry := expiry }

/-- Sample world: the empty world after a successful `Lock` on `uuidZero`. -/
def sampleHeld : World :=
  ((storeLocker 0 (sampleConfig 0)).Lock (ctxRef 0) uuidZero World.empty).2

/-- Sample interleaving after that lock: time passes, a second caller tries the same flow,
somebody invokes the handle of the second caller's mutex, the first context is canceled. -/
def samplePost : List Event :=
  [Event.tick 1000, Event.lock (sampleConfig 0) 1 uuidZero, Event.release 1 2,
    Event.cancel 0 Error.canceled]

/-- Tokens are unique: every token a mutex object remembers was generated earlier. -/
def TokensMinted (w : World) : Prop :=
  ∀ (j : Nat) (mu : Mutex) (t : Token), w.mutexes[j]? = some mu → mu.value = some t → t < w.minted

/-- The lease with token `t` and expiry instant `exp`, taken through mutex `m`, is stored
under `key`, and no other mutex object remembers its token. -/
def Held (key : String) (t : Token) (exp : Int) (m : MutexRef) (w : World) : Prop :=
  getLease key w.leases = some ⟨t, exp⟩ ∧ t < w.minted ∧
    ∀ (j : Nat) (mu : Mutex), w.mutexes[j]? = some mu → j ≠ m → mu.value ≠ some t

/-! ## Flow identifiers and resource names -/

theorem hexDigit_inj (a b : Fin 16) (h : hexDigit a.val = hexDigit b.val) : a = b := by
  revert a b
  decide

theorem byte_of_digits (a b : Fin 256) (h1 : hexDigit (a.val / 16) = hexDigit (b.val / 16))
    (h2 : hexDigit (a.val % 16) = hexDigit (b.val % 16)) : a = b := by
  have ha := a.isLt
  have hb := b.isLt
  have e1 := hexDigit_inj ⟨a.val / 16, by omega⟩ ⟨b.val / 16, by omega⟩ h1
  have e2 := hexDigit_inj ⟨a.val % 16, by omega⟩ ⟨b.val % 16, by omega⟩ h2
  have e1v := congrArg Fin.val e1
  have e2v := congrArg Fin.val e2
  simp only at e1v e2v
  apply Fin.ext
  omega

theorem hexEncode_length (l : List (Fin 256)) : (hexEncode l).length = 2 * l.length := by
  induction l with
  | nil => rfl
  | cons v rest ih => simp [hexEncode, ih]; omega

theorem hexEncode_inj : ∀ (a b : List (Fin 256)), hexEncode a = hexEncode b → a = b
  | [], [], _ => rfl
  | [], _ :: _, h => by simp [hexEncode] at h
  | _ :: _, [], h => by simp [hexEncode] at h
  | x :: xs, y :: ys, h => by
    simp only [hexEncode, List.cons.injEq] at h
    obtain ⟨h1, h2, h3⟩ := h
    rw [byte_of_digits x y h1 h2, hexEncode_inj xs ys h3]

theorem bytes_of_slices (l : List (Fin 256)) :
    l = slice l 0 4 ++ (slice l 4 6 ++ (slice l 6 8 ++ (slice l 8 10 ++ l.drop 10))) := by
  have e1 : l.drop 8 = slice l 8 10 ++ l.drop 10 := by
    have := (List.take_append_drop 2 (l.drop 8)).symm
    simpa [slice, List.drop_drop] using this
  have e2 : l.drop 6 = slice l 6 8 ++ l.drop 8 := by
    have := (List.take_append_drop 2 (l.drop 6)).symm
    simpa [slice, List.drop_drop] using this
  have e3 : l.drop 4 = slice l 4 6 ++ l.drop 6 := by
    have := (List.take_append_drop 2 (l.drop 4)).symm
    simpa [slice, List.drop_drop] using this
  have e4 : l = slice l 0 4 ++ l.drop 4 := by
    have := (List.take_append_drop 4 l).symm
    simp [slice]
  rw [← e1, ← e2, ← e3, ← e4]

theorem slice_length (l : List (Fin 256)) (lo hi : Nat) (h : hi ≤ l.length) :
    (slice l lo hi).length = hi - lo := by
  simp [slice]
  omega

theorem UUID_String_inj (u v : UUID) (h : u.String = v.String) : u = v := by
  have hu := u.size
  have hv := v.size
  have hb : u.bytes = v.bytes := by
    unfold UUID.String at h
    have h0 : (String.mk _).data = (String.mk _).data := congrArg String.data h
    simp only at h0
    have len (w : UUID) (lo hi : Nat) (hh : hi ≤ 16) :
        (hexEncode (slice w.bytes lo hi)).length = 2 * (hi - lo) := by
      rw [hexEncode_length, slice_length _ _ _ (by rw [w.size]; exact hh)]
    obtain ⟨a1, h1⟩ := List.append_inj h0 (by rw [len u 0 4 (by omega), len v 0 4 (by omega)])
    obtain ⟨a2, h2⟩ := List.append_inj (List.cons.inj h1).2
      (by rw [len u 4 6 (by omega), len v 4 6 (by omega)])
    obtain ⟨a3, h3⟩ := List.append_inj (List.cons.inj h2).2
      (by rw [len u 6 8 (by omega), len v 6 8 (by omega)])
    obtain ⟨a4, h4⟩ := List.append_inj (List.cons.inj h3).2
      (by rw [len u 8 10 (by omega), len v 8 10 (by omega)])
    have a5 := (List.cons.inj h4).2
    rw [bytes_of_slices u.bytes, bytes_of_slices v.bytes, hexEncode_inj _ _ a1,
      hexEncode_inj _ _ a2, hexEncode_inj _ _ a3, hexEncode_inj _ _ a4, hexEncode_inj _ _ a5]
  cases u
  cases v
  simp only [UUID.mk.injEq]
  exact hb

theorem string_append_left_cancel (p a b : String) (h : p ++ a = p ++ b) : a = b := by
  have h1 := congrArg String.data h
  simp only [String.data_append] at h1
  exact String.ext (List.append_cancel_left h1)

/-! ## Symbolic execution of `Lock` over the store -/

theorem NewRedisLocker_expiry {σ : Type} (redsyncNew : Pool → Redsync σ)
    (config : RedisLockerConfig) :
    (NewRedisLocker redsyncNew config).expiry =
      if config.Expiry = 0 then 15 * Second else config.Expiry := by
  unfold NewRedisLocker
  split <;> simp_all

theorem storeLocker_expiry (margin : Duration) (config : RedisLockerConfig) :
    (storeLocker margin config).expiry =
      if config.Expiry = 0 then 15 * Second else config.Expiry :=
  NewRedisLocker_expiry _ config

theorem Lock_dead (r : RedisLocker World) (c : Nat) (flowID : UUID) (w : World) (e : Error)
    (hc : getDone c w.done = some e) :
    r.Lock (ctxRef c) flowID w = ((none, some (Errorf "context error: " (some e))), w) := by
  simp [RedisLocker.Lock, ctxRef, hc]

theorem heap_set_last (l : List Mutex) (a b : Mutex) : (l ++ [a]).set l.length b = l ++ [b] := by
  induction l with
  | nil => rfl
  | cons x xs ih => simp [ih]

theorem getLease_erase_other (key k2 : String) (ls : List (String × Lease)) (h : k2 ≠ key) :
    getLease key (eraseLease k2 ls) = getLease key ls := by
  induction ls with
  | nil => rfl
  | cons p rest ih =>
    obtain ⟨k, l⟩ := p
    by_cases h1 : k = k2
    · subst h1
      simp [eraseLease, getLease, h, ih]
    · by_cases h2 : k = key
      · subst h2
        simp [eraseLease, getLease, h1]
      · simp [eraseLease, getLease, h1, h2, ih]

theorem getLease_put_same (key : String) (l : Lease) (ls : List (String × Lease)) :
    getLease key (putLease key l ls) = some l := by
  simp [putLease, getLease]

theorem getLease_put_other (key k2 : String) (l : Lease) (ls : List (String × Lease))
    (h : k2 ≠ key) : getLease key (putLease k2 l ls) = getLease key ls := by
  simp [putLease, getLease, h, getLease_erase_other key k2 ls h]

theorem liveLease_put_same (now : Int) (key : String) (l : Lease) (ls : List (String × Lease)) :
    liveLease now (putLease key l ls) key = if now < l.expiresAt then some l else none := by
  simp [liveLease, getLease_put_same]

theorem eraseLease_put (key : String) (l : Lease) (ls : List (String × Lease)) :
    eraseLease key (putLease key l ls) = eraseLease key ls := by
  have idem : ∀ xs : List (String × Lease), eraseLease key (eraseLease key xs) = eraseLease key xs := by
    intro xs
    induction xs with
    | nil => rfl
    | cons p rest ih =>
      obtain ⟨k, l2⟩ := p
      by_cases h : k = key <;> simp [eraseLease, h, ih]
  simp [putLease, eraseLease, idem]

theorem Lock_unreachable (margin expiry : Duration) (c : Nat) (flowID : UUID) (w : World)
    (hc : getDone c w.done = none) (hr : w.reachable = false) :
    (RedisLocker.mk (storeRedsync margin) expiry).Lock (ctxRef c) flowID w =
      ((none, some Error.storeUnavailable),
        { w with minted := w.minted + 1,
                 mutexes := w.mutexes ++ [Mutex.mk (resourceName flowID) expiry 1 none],
                 log := StoreOp.trySet (resourceName flowID) w.minted expiry :: w.log }) := by
  simp [RedisLocker.Lock, ctxRef, hc, storeRedsync, storeNewMutex, storeLockContext, applyOption,
    lockLoop, acquire, resourceName, trySet, hr]

theorem Lock_invalid (margin expiry : Duration) (c : Nat) (flowID : UUID) (w : World)
    (hc : getDone c w.done = none) (hr : w.reachable = true) (hms : ¬ Millisecond ≤ expiry) :
    (RedisLocker.mk (storeRedsync margin) expiry).Lock (ctxRef c) flowID w =
      ((none, some Error.invalidExpire),
        { w with minted := w.minted + 1,
                 mutexes := w.mutexes ++ [Mutex.mk (resourceName flowID) expiry 1 none],
                 log := StoreOp.trySet (resourceName flowID) w.minted expiry :: w.log }) := by
  have hlt : expiry < Millisecond := lt_of_not_le hms
  simp [RedisLocker.Lock, ctxRef, hc, storeRedsync, storeNewMutex, storeLockContext, applyOption,
    lockLoop, acquire, resourceName, trySet, hr, hlt]

theorem Lock_busy (margin expiry : Duration) (c : Nat) (flowID : UUID) (w : World) (l : Lease)
    (hc : getDone c w.done = none) (hr : w.reachable = true) (hms : Millisecond ≤ expiry)
    (hl : liveLease w.now w.leases (resourceName flowID) = some l) :
    (RedisLocker.mk (storeRedsync margin) expiry).Lock (ctxRef c) flowID w =
      ((none, some Error.errFailed),
        { w with minted := w.minted + 1,
                 mutexes := w.mutexes ++ [Mutex.mk (resourceName flowID) expiry 1 none],
                 log := StoreOp.trySet (resourceName flowID) w.minted expiry :: w.log }) := by
  unfold resourceName at hl
  have hlt : ¬ expiry < Millisecond := not_lt_of_le hms
  simp [RedisLocker.Lock, ctxRef, hc, storeRedsync, storeNewMutex, storeLockContext, applyOption,
    lockLoop, acquire, resourceName, trySet, hr, hl, hlt]

theorem Lock_acquired (margin expiry : Duration) (c : Nat) (flowID : UUID) (w : World)
    (hc : getDone c w.done = none) (hr : w.reachable = true) (hms : Millisecond ≤ expiry)
    (hl : liveLease w.now w.leases (resourceName flowID) = none) (hm : margin < expiry) :
    (RedisLocker.mk (storeRedsync margin) expiry).Lock (ctxRef c) flowID w =
      ((some (unlockClosure (storeRedsync margin) w.mutexes.length), none),
        { w with minted := w.minted + 1,
                 mutexes := w.mutexes ++ [Mutex.mk (resourceName flowID) expiry 1 (some w.minted)],
                 leases := putLease (resourceName flowID) ⟨w.minted, w.now + expiry⟩ w.leases,
                 log := StoreOp.trySet (resourceName flowID) w.minted expiry :: w.log }) := by
  unfold resourceName at hl
  have hlt : ¬ expiry < Millisecond := not_lt_of_le hms
  simp [RedisLocker.Lock, ctxRef, hc, storeRedsync, storeNewMutex, storeLockContext, applyOption,
    lockLoop, acquire, resourceName, trySet, hr, hl, hm, hlt, heap_set_last]

theorem Lock_rejected (margin expiry : Duration) (c : Nat) (flowID : UUID) (w : World)
    (hc : getDone c w.done = none) (hr : w.reachable = true) (hms : Millisecond ≤ expiry)
    (hl : liveLease w.now w.leases (resourceName flowID) = none) (hm : ¬ margin < expiry) :
    (RedisLocker.mk (storeRedsync margin) expiry).Lock (ctxRef c) flowID w =
      ((none, some Error.errFailed),
        { w with minted := w.minted + 1,
                 mutexes := w.mutexes ++ [Mutex.mk (resourceName flowID) expiry 1 none],
                 leases := eraseLease (resourceName flowID) w.leases,
                 log := StoreOp.tryDelete (resourceName flowID) (some w.minted) ::
                   StoreOp.trySet (resourceName flowID) w.minted expiry :: w.log }) := by
  unfold resourceName at hl
  have hlt : ¬ expiry < Millisecond := not_lt_of_le hms
  have hp : (0 : Int) < expiry := lt_of_lt_of_le (by decide) hms
  simp [RedisLocker.Lock, ctxRef, hc, storeRedsync, storeNewMutex, storeLockContext, applyOption,
    lockLoop, acquire, resourceName, trySet, hr, hl, hm, hlt, release, tryDelete,
    liveLease_put_same, hp, eraseLease_put]

theorem storeLocker_eq (margin : Duration) (config : RedisLockerConfig) :
    storeLocker margin config =
      RedisLocker.mk (storeRedsync margin) (storeLocker margin config).expiry := rfl

/-- What a `Lock` call through a store locker does to the world, summarised. -/
theorem Lock_frame (margin expiry : Duration) (c : Nat) (flowID : UUID) (w : World) :
    (((RedisLocker.mk (storeRedsync margin) expiry).Lock (ctxRef c) flowID w).2 = w ∨
      (((RedisLocker.mk (storeRedsync margin) expiry).Lock (ctxRef c) flowID w).2.minted
          = w.minted + 1 ∧
        ∃ v, (v = none ∨ v = some w.minted) ∧
          ((RedisLocker.mk (storeRedsync margin) expiry).Lock (ctxRef c) flowID w).2.mutexes
            = w.mutexes ++ [Mutex.mk (resourceName flowID) expiry 1 v])) ∧
    ((RedisLocker.mk (storeRedsync margin) expiry).Lock (ctxRef c) flowID w).2.now = w.now ∧
    ((RedisLocker.mk (storeRedsync margin) expiry).Lock (ctxRef c) flowID w).2.done = w.done ∧
    ((RedisLocker.mk (storeRedsync margin) expiry).Lock (ctxRef c) flowID w).2.reachable
      = w.reachable ∧
    (∀ k, k ≠ resourceName flowID →
      getLease k ((RedisLocker.mk (storeRedsync margin) expiry).Lock (ctxRef c) flowID w).2.leases
        = getLease k w.leases) ∧
    (∀ l, liveLease w.now w.leases (resourceName flowID) = some l →
      ((RedisLocker.mk (storeRedsync margin) expiry).Lock (ctxRef c) flowID w).2.leases
        = w.leases) := by
  cases hc : getDone c w.done with
  | some e => simp [Lock_dead _ c flowID w e hc]
  | none =>
    cases hr : w.reachable with
    | false => simp [Lock_unreachable margin expiry c flowID w hc hr, hr]
    | true =>
      by_cases hms : Millisecond ≤ expiry
      · cases hl : liveLease w.now w.leases (resourceName flowID) with
        | some l => simp [Lock_busy margin expiry c flowID w l hc hr hms hl, hr]
        | none =>
          by_cases hm : margin < expiry
          · rw [Lock_acquired margin expiry c flowID w hc hr hms hl hm]
            simp [hr]
            intro k hk
            exact getLease_put_other k _ _ _ (Ne.symm hk)
          · rw [Lock_rejected margin expiry c flowID w hc hr hms hl hm]
            simp [hr]
            intro k hk
            exact getLease_erase_other k _ _ (Ne.symm hk)
      · simp [Lock_invalid margin expiry c flowID w hc hr hms, hr]

/-- The `trySet` calls of one `Lock` with a live context: exactly one, for the resource
name of the flow, with a fresh token and the locker's lease duration. -/
theorem Lock_sets (margin expiry : Duration) (c : Nat) (flowID : UUID) (w : World)
    (hc : getDone c w.done = none) :
    setsOf ((RedisLocker.mk (storeRedsync margin) expiry).Lock (ctxRef c) flowID w).2.log =
      (resourceName flowID, w.minted, expiry) :: setsOf w.log := by
  cases hr : w.reachable with
  | false => simp [Lock_unreachable margin expiry c flowID w hc hr, setsOf]
  | true =>
    by_cases hms : Millisecond ≤ expiry
    · cases hl : liveLease w.now w.leases (resourceName flowID) with
      | some l => simp [Lock_busy margin expiry c flowID w l hc hr hms hl, setsOf]
      | none =>
        by_cases hm : margin < expiry
        · simp [Lock_acquired margin expiry c flowID w hc hr hms hl hm, setsOf]
        · simp [Lock_rejected margin expiry c flowID w hc hr hms hl hm, setsOf]
    · simp [Lock_invalid margin expiry c flowID w hc hr hms, setsOf]

/-! ## The release closure over the store -/

/-- What invoking a release handle does to the world, summarised. -/
theorem unlock_frame (margin : Duration) (m : MutexRef) (c : Nat) (w : World) :
    (unlockClosure (storeRedsync margin) m (ctxRef c) w).2.now = w.now ∧
    (unlockClosure (storeRedsync margin) m (ctxRef c) w).2.done = w.done ∧
    (unlockClosure (storeRedsync margin) m (ctxRef c) w).2.reachable = w.reachable ∧
    (unlockClosure (storeRedsync margin) m (ctxRef c) w).2.minted = w.minted ∧
    (unlockClosure (storeRedsync margin) m (ctxRef c) w).2.mutexes = w.mutexes ∧
    ((unlockClosure (storeRedsync margin) m (ctxRef c) w).2.leases = w.leases ∨
      ∃ mu l, w.mutexes[m]? = some mu ∧ liveLease w.now w.leases mu.name = some l ∧
        some l.value = mu.value ∧
        (unlockClosure (storeRedsync margin) m (ctxRef c) w).2.leases
          = eraseLease mu.name w.leases) := by
  simp only [unlockClosure, storeRedsync, storeUnlockContext]
  cases hm : w.mutexes[m]? with
  | none => simp
  | some mu =>
    cases hc : getDone c w.done with
    | some e => simp [release, ctxRef, hc]
    | none =>
      cases hr : w.reachable with
      | false => simp [release, ctxRef, hc, tryDelete, hr]
      | true =>
        cases hl : liveLease w.now w.leases mu.name with
        | none => simp [release, ctxRef, hc, tryDelete, hr, hl]
        | some l =>
          by_cases hv : some l.value = mu.value
          · simp [release, ctxRef, hc, tryDelete, hr, hl, hv]
          · simp [release, ctxRef, hc, tryDelete, hr, hl, hv]

/-! ## Invariants of interleavings -/

theorem heap_get_append (l : List Mutex) (a mu : Mutex) (j : Nat)
    (h : (l ++ [a])[j]? = some mu) : l[j]? = some mu ∨ (j = l.length ∧ mu = a) := by
  induction l generalizing j with
  | nil =>
    cases j with
    | zero => simp at h; simp [h]
    | succ n => simp at h
  | cons x xs ih =>
    cases j with
    | zero => simpa using h
    | succ n =>
      simp only [List.cons_append, List.getElem?_cons_succ] at h
      simpa using ih n h

theorem step_lock (margin : Duration) (config : RedisLockerConfig) (c : Nat) (flowID : UUID)
    (w : World) :
    step margin (Event.lock config c flowID) w =
      ((RedisLocker.mk (storeRedsync margin) (storeLocker margin config).expiry).Lock
        (ctxRef c) flowID w).2 := rfl

theorem now_le_step (margin : Duration) (e : Event) (w : World) :
    w.now ≤ (step margin e w).now := by
  cases e with
  | lock config c flowID =>
    rw [step_lock, (Lock_frame margin _ c flowID w).2.1]
  | release m c =>
    simp only [step]
    rw [(unlock_frame margin m c w).1]
  | tick d => simp [step]
  | cancel c e =>
    simp only [step, cancelCtx]
    split <;> simp
  | reach up => simp [step]

theorem now_le_run (margin : Duration) (evs : List Event) (w : World) :
    w.now ≤ (run margin evs w).now := by
  induction evs generalizing w with
  | nil => simp [run]
  | cons e rest ih =>
    have h1 := now_le_step margin e w
    have h2 := ih (step margin e w)
    simp only [run, List.foldl_cons] at h2 ⊢
    omega

theorem TokensMinted_step (margin : Duration) (e : Event) (w : World) (h : TokensMinted w) :
    TokensMinted (step margin e w) := by
  cases e with
  | lock config c flowID =>
    rw [step_lock]
    obtain ⟨hcase, -⟩ := Lock_frame margin (storeLocker margin config).expiry c flowID w
    rcases hcase with hsame | ⟨hmint, v, hv, hmu⟩
    · rw [hsame]; exact h
    · intro j mu t hj ht
      rw [hmint]
      rw [hmu] at hj
      rcases heap_get_append _ _ _ _ hj with hold | ⟨-, hnew⟩
      · exact Nat.lt_succ_of_lt (h j mu t hold ht)
      · subst hnew
        rcases hv with hv | hv
        · simp [hv] at ht
        · simp [hv] at ht
          subst ht
          exact Nat.lt_succ_self _
  | release m c =>
    obtain ⟨-, -, -, hmint, hmu, -⟩ := unlock_frame margin m c w
    intro j mu t hj ht
    simp only [step] at hj ⊢
    rw [hmint]
    rw [hmu] at hj
    exact h j mu t hj ht
  | tick d => exact h
  | cancel c e =>
    simp only [step, cancelCtx]
    split
    · exact h
    · exact h
  | reach up => exact h

theorem TokensMinted_run (margin : Duration) (evs : List Event) (w : World)
    (h : TokensMinted w) : TokensMinted (run margin evs w) := by
  induction evs generalizing w with
  | nil => exact h
  | cons e rest ih => exact ih _ (TokensMinted_step margin e w h)

theorem TokensMinted_empty : TokensMinted World.empty := by
  intro j mu t hj
  simp [World.empty] at hj

theorem liveLease_of_get (now : Int) (ls : List (String × Lease)) (key : String) (l : Lease)
    (hg : getLease key ls = some l) (hn : now < l.expiresAt) : liveLease now ls key = some l := by
  simp [liveLease, hg, hn]

theorem Held_step (margin : Duration) (key : String) (t : Token) (exp : Int) (m : MutexRef)
    (e : Event) (w : World) (h : Held key t exp m w) (he : e.releases m = false)
    (hnow : (step margin e w).now < exp) : Held key t exp m (step margin e w) := by
  have hw : w.now < exp := lt_of_le_of_lt (now_le_step margin e w) hnow
  obtain ⟨hg, ht, hmu⟩ := h
  have hlive : liveLease w.now w.leases key = some ⟨t, exp⟩ := liveLease_of_get _ _ _ _ hg hw
  cases e with
  | lock config c flowID =>
    rw [step_lock]
    obtain ⟨hcase, -, -, -, hother, hsame⟩ :=
      Lock_frame margin (storeLocker margin config).expiry c flowID w
    have hlease : getLease key ((RedisLocker.mk (storeRedsync margin)
        (storeLocker margin config).expiry).Lock (ctxRef c) flowID w).2.leases
          = some ⟨t, exp⟩ := by
      by_cases hk : key = resourceName flowID
      · rw [hsame ⟨t, exp⟩ (hk ▸ hlive)]
        exact hg
      · rw [hother key hk]
        exact hg
    rcases hcase with hsm | ⟨hmint, v, hv, hheap⟩
    · refine ⟨hlease, ?_, ?_⟩
      · rw [hsm]; exact ht
      · rw [hsm]; exact hmu
    · refine ⟨hlease, ?_, ?_⟩
      · rw [hmint]; exact Nat.lt_succ_of_lt ht
      · intro j mu hj hjm
        rw [hheap] at hj
        rcases heap_get_append _ _ _ _ hj with hold | ⟨-, hnew⟩
        · exact hmu j mu hold hjm
        · subst hnew
          rcases hv with hv | hv
          · simp [hv]
          · simp only [hv]
            intro hcontra
            have : w.minted = t := Option.some.inj hcontra
            exact absurd ht (by rw [this]; exact Nat.lt_irrefl _)
  | release m2 c =>
    have hne : m2 ≠ m := by simpa [Event.releases] using he
    obtain ⟨-, -, -, hmint, hheap, hleases⟩ := unlock_frame margin m2 c w
    simp only [step]
    refine ⟨?_, ?_, ?_⟩
    · rcases hleases with hsm | ⟨mu, l, hm2, hl, hval, herase⟩
      · rw [hsm]; exact hg
      · rw [herase]
        by_cases hk : mu.name = key
        · rw [hk, hlive] at hl
          have hl2 : l = ⟨t, exp⟩ := (Option.some.inj hl).symm
          rw [hl2] at hval
          exact absurd hval.symm (hmu m2 mu hm2 hne)
        · rw [getLease_erase_other key mu.name _ hk]
          exact hg
    · rw [hmint]; exact ht
    · rw [hheap]; exact hmu
  | tick d => exact ⟨hg, ht, hmu⟩
  | cancel c e =>
    simp only [step, cancelCtx]
    split
    · exact ⟨hg, ht, hmu⟩
    · exact ⟨hg, ht, hmu⟩
  | reach up => exact ⟨hg, ht, hmu⟩

theorem Held_run (margin : Duration) (key : String) (t : Token) (exp : Int) (m : MutexRef)
    (evs : List Event) (w : World) (h : Held key t exp m w)
    (he : ∀ e ∈ evs, e.releases m = false) (hnow : (run margin evs w).now < exp) :
    Held key t exp m (run margin evs w) := by
  induction evs generalizing w with
  | nil => exact h
  | cons e rest ih =>
    have h1 : (step margin e w).now < exp :=
      lt_of_le_of_lt (now_le_run margin rest (step margin e w)) hnow
    exact ih (step margin e w)
      (Held_step margin key t exp m e w h (he e (List.mem_cons_self e rest)) h1)
      (fun e2 h2 => he e2 (List.mem_cons_of_mem e h2)) hnow

/-- A `Lock` on a key whose lease is live fails: no handle, an error. -/
theorem Lock_of_live (margin expiry : Duration) (c : Nat) (flowID : UUID) (w : World) (l : Lease)
    (hl : liveLease w.now w.leases (resourceName flowID) = some l) :
    ((RedisLocker.mk (storeRedsync margin) expiry).Lock (ctxRef c) flowID w).1.1 = none ∧
    (((RedisLocker.mk (storeRedsync margin) expiry).Lock (ctxRef c) flowID w).1.2).isSome
      = true := by
  cases hc : getDone c w.done with
  | some e => simp [Lock_dead _ c flowID w e hc]
  | none =>
    cases hr : w.reachable with
    | false => simp [Lock_unreachable margin expiry c flowID w hc hr]
    | true =>
      by_cases hms : Millisecond ≤ expiry
      · simp [Lock_busy margin expiry c flowID w l hc hr hms hl]
      · simp [Lock_invalid margin expiry c flowID w hc hr hms]

/-- The outcome of a successful `Lock` over the store: the store was reachable, the key
free, the margin below the lease duration, and the handle and new world are as follows. -/
theorem Lock_success (margin expiry : Duration) (c : Nat) (flowID : UUID) (w w1 : World)
    (h : Release World)
    (hlock : (RedisLocker.mk (storeRedsync margin) expiry).Lock (ctxRef c) flowID w
      = ((some h, none), w1)) :
    getDone c w.done = none ∧ w.reachable = true ∧
    liveLease w.now w.leases (resourceName flowID) = none ∧ margin < expiry ∧
    Millisecond ≤ expiry ∧
    h = unlockClosure (storeRedsync margin) w.mutexes.length ∧
    w1 = { w with minted := w.minted + 1,
                  mutexes := w.mutexes ++ [Mutex.mk (resourceName flowID) expiry 1 (some w.minted)],
                  leases := putLease (resourceName flowID) ⟨w.minted, w.now + expiry⟩ w.leases,
                  log := StoreOp.trySet (resourceName flowID) w.minted expiry :: w.log } := by
  cases hc : getDone c w.done with
  | some e => simp [Lock_dead _ c flowID w e hc] at hlock
  | none =>
    rcases Bool.eq_false_or_eq_true w.reachable with hr | hr
    · by_cases hms : Millisecond ≤ expiry
      · cases hl : liveLease w.now w.leases (resourceName flowID) with
        | some l => simp [Lock_busy margin expiry c flowID w l hc hr hms hl] at hlock
        | none =>
          by_cases hm : margin < expiry
          · rw [Lock_acquired margin expiry c flowID w hc hr hms hl hm] at hlock
            simp only [Prod.mk.injEq, Option.some.injEq, and_true] at hlock
            exact ⟨rfl, hr, rfl, hm, hms, hlock.1.symm, hlock.2.symm⟩
          · simp [Lock_rejected margin expiry c flowID w hc hr hms hl hm] at hlock
      · simp [Lock_invalid margin expiry c flowID w hc hr hms] at hlock
    · simp [Lock_unreachable margin expiry c flowID w hc hr] at hlock

theorem Errorf_release_message (err : Option Error) :
    ∃ rest, (Errorf "failed to release lock: " err).message = "failed to release lock" ++ rest := by
  have hsplit : "failed to release lock: " = "failed to release lock" ++ ": " := by decide
  cases err with
  | none =>
    exact ⟨": " ++ "%!w(<nil>)", (congrArg (fun p => p ++ "%!w(<nil>)") hsplit).trans
      (String.append_assoc _ _ _)⟩
  | some e =>
    exact ⟨": " ++ e.message, (congrArg (fun p => p ++ e.message) hsplit).trans
      (String.append_assoc _ _ _)⟩

/-- The release closure as a function of what `UnlockContext` answers. -/
theorem unlockClosure_eq {σ : Type} (rs : Redsync σ) (mutex : MutexRef) (ctx : Context σ)
    (s : σ) :
    unlockClosure rs mutex ctx s =
      (if (rs.UnlockContext ctx mutex s).1.1 = true ∧ (rs.UnlockContext ctx mutex s).1.2 = none
        then none
        else some (Errorf "failed to release lock: " (rs.UnlockContext ctx mutex s).1.2),
       (rs.UnlockContext ctx mutex s).2) := by
  unfold unlockClosure
  generalize rs.UnlockContext ctx mutex s = res
  obtain ⟨⟨ok, err⟩, s2⟩ := res
  cases ok <;> cases err <;> rfl

/-- With a live context the world `Lock` leaves is the world its one `LockContext` call
left. -/
theorem Lock_world {σ : Type} (r : RedisLocker σ) (ctx : Context σ) (flowID : UUID) (s : σ)
    (hc : ctx.Err s = none) :
    (r.Lock ctx flowID s).2 =
      (r.rs.LockContext ctx
        (r.rs.NewMutex ("flow:lock:" ++ flowID.String)
          [MutexOption.WithExpiry r.expiry, MutexOption.WithTries 1] s).1
        (r.rs.NewMutex ("flow:lock:" ++ flowID.String)
          [MutexOption.WithExpiry r.expiry, MutexOption.WithTries 1] s).2).2 := by
  unfold RedisLocker.Lock
  simp only [hc]
  cases hl : r.rs.LockContext ctx
      (r.rs.NewMutex ("flow:lock:" ++ flowID.String)
        [MutexOption.WithExpiry r.expiry, MutexOption.WithTries 1] s).1
      (r.rs.NewMutex ("flow:lock:" ++ flowID.String)
        [MutexOption.WithExpiry r.expiry, MutexOption.WithTries 1] s).2 with
  | mk res s2 => cases res <;> rfl

/-- The handle `Lock` returns on success is the release closure over the mutex that
`NewMutex` returned. -/
theorem Lock_handle {σ : Type} (r : RedisLocker σ) (ctx : Context σ) (flowID : UUID) (s s1 : σ)
    (h : Release σ) (hlock : r.Lock ctx flowID s = ((some h, none), s1)) :
    h = unlockClosure r.rs (r.rs.NewMutex ("flow:lock:" ++ flowID.String)
      [MutexOption.WithExpiry r.expiry, MutexOption.WithTries 1] s).1 := by
  unfold RedisLocker.Lock at hlock
  cases hc : ctx.Err s with
  | some e => simp [hc] at hlock
  | none =>
    simp only [hc] at hlock
    cases hl : r.rs.LockContext ctx (r.rs.NewMutex ("flow:lock:" ++ flowID.String)
        [MutexOption.WithExpiry r.expiry, MutexOption.WithTries 1] s).1
        (r.rs.NewMutex ("flow:lock:" ++ flowID.String)
        [MutexOption.WithExpiry r.expiry, MutexOption.WithTries 1] s).2 with
    | mk res s2 =>
      cases res with
      | some e => simp [hl] at hlock
      | none =>
        simp only [hl, Prod.mk.injEq, Option.some.injEq, and_true] at hlock
        exact hlock.1.symm

theorem getDone_cancel_other (c c3 : Nat) (e : Error) (w : World) (hne : c3 ≠ c) :
    getDone c3 (cancelCtx c e w).done = getDone c3 w.done := by
  unfold cancelCtx
  split
  · rfl
  · simp [getDone, Ne.symm hne]

theorem unlock_cancel_commute (margin : Duration) (m : MutexRef) (c c3 : Nat) (e : Error)
    (w : World) (hne : c3 ≠ c) :
    unlockClosure (storeRedsync margin) m (ctxRef c3) (cancelCtx c e w) =
      ((unlockClosure (storeRedsync margin) m (ctxRef c3) w).1,
        cancelCtx c e (unlockClosure (storeRedsync margin) m (ctxRef c3) w).2) := by
  have hd := getDone_cancel_other c c3 e w hne
  unfold cancelCtx at hd ⊢
  cases hcd : getDone c w.done with
  | some e0 =>
    have hf := (unlock_frame margin m c3 w).2.1
    simp only [hcd, hf]
  | none =>
    simp only [hcd] at hd ⊢
    simp only [unlockClosure, storeRedsync, storeUnlockContext]
    cases hm : w.mutexes[m]? with
    | none => simp [hcd]
    | some mu =>
      cases hc : getDone c3 w.done with
      | some e3 => simp [release, ctxRef, hc, hd, hcd]
      | none =>
        rcases Bool.eq_false_or_eq_true w.reachable with hr | hr
        · cases hl : liveLease w.now w.leases mu.name with
          | none => simp [release, ctxRef, hc, hd, hcd, tryDelete, hr, hl]
          | some l =>
            by_cases hv : some l.value = mu.value
            · simp [release, ctxRef, hc, hd, hcd, tryDelete, hr, hl, hv]
            · simp [release, ctxRef, hc, hd, hcd, tryDelete, hr, hl, hv]
        · simp [release, ctxRef, hc, hd, hcd, tryDelete, hr]

/-! ## The claims -/

/-- C1: when the context handed to `Lock` is already done, `Lock` returns no release
handle and the error "context error: ..." that wraps the context's error, and the world
is left exactly as it was, whatever the library behind the locker is: no mutex was
created, nothing was acquired or deleted, every call counter reads what it read before. -/
theorem C1_done_context_no_effect (σ : Type) (r : RedisLocker σ) (ctx : Context σ)
    (flowID : UUID) (s : σ) (e : Error) (hc : ctx.Err s = some e) :
    (r.Lock ctx flowID s).1.1 = none ∧
    (r.Lock ctx flowID s).1.2 = some (Errorf "context error: " (some e)) ∧
    (Errorf "context error: " (some e)).unwrap = some e ∧
    (Errorf "context error: " (some e)).message = "context error: " ++ e.message ∧
    (r.Lock ctx flowID s).2 = s ∧
    ∀ (calls : σ → Nat), calls (r.Lock ctx flowID s).2 = calls s := by
  have hl : r.Lock ctx flowID s = ((none, some (Errorf "context error: " (some e))), s) := by
    simp [RedisLocker.Lock, hc]
  rw [hl]
  exact ⟨rfl, rfl, rfl, rfl, rfl, fun _ => rfl⟩

/-- Witness for C1 over the store: a canceled context on the empty world; the adapter
log stays empty and no mutex object exists afterwards. -/
theorem C1_done_context_no_effect_witness :
    (ctxRef 7).Err (cancelCtx 7 Error.canceled World.empty) = some Error.canceled ∧
    ((storeLocker 0 (sampleConfig 0)).Lock (ctxRef 7) uuidZero
      (cancelCtx 7 Error.canceled World.empty)).2.log.length = 0 ∧
    ((storeLocker 0 (sampleConfig 0)).Lock (ctxRef 7) uuidZero
      (cancelCtx 7 Error.canceled World.empty)).2.mutexes = [] :=
  ⟨rfl,
    (C1_done_context_no_effect World (storeLocker 0 (sampleConfig 0)) (ctxRef 7) uuidZero
      (cancelCtx 7 Error.canceled World.empty) Error.canceled rfl).2.2.2.2.2
      (fun w => w.log.length),
    congrArg World.mutexes
      (C1_done_context_no_effect World (storeLocker 0 (sampleConfig 0)) (ctxRef 7) uuidZero
        (cancelCtx 7 Error.canceled World.empty) Error.canceled rfl).2.2.2.2.1⟩

/-- C2: the locker built by `NewRedisLocker` has lease duration 15 seconds when the
configured expiry is zero and the configured expiry otherwise, and its `Lock` asks for a
mutex with exactly that duration as the expiry option, whatever the library; over the
store, a `Lock` with a live context sends exactly one `trySet`, whose TTL is that
duration, and a lease it writes expires that duration after the call. -/
theorem C2_lease_duration (margin : Duration) (config : RedisLockerConfig) (c : Nat)
    (flowID : UUID) (w : World) (hc : getDone c w.done = none) :
    (∀ (σ : Type) (redsyncNew : Pool → Redsync σ),
      (NewRedisLocker redsyncNew config).expiry
        = if config.Expiry = 0 then 15 * Second else config.Expiry) ∧
    15 * Second = (15000000000 : Int) ∧
    (∀ (σ : Type) (redsyncNew : Pool → Redsync σ) (ctx : Context σ) (s : σ),
      ctx.Err s = none →
        ((NewRedisLocker redsyncNew config).Lock ctx flowID s).2 =
          ((NewRedisLocker redsyncNew config).rs.LockContext ctx
            ((NewRedisLocker redsyncNew config).rs.NewMutex ("flow:lock:" ++ flowID.String)
              [MutexOption.WithExpiry (if config.Expiry = 0 then 15 * Second else config.Expiry),
                MutexOption.WithTries 1] s).1
            ((NewRedisLocker redsyncNew config).rs.NewMutex ("flow:lock:" ++ flowID.String)
              [MutexOption.WithExpiry (if config.Expiry = 0 then 15 * Second else config.Expiry),
                MutexOption.WithTries 1] s).2).2) ∧
    setsOf ((storeLocker margin config).Lock (ctxRef c) flowID w).2.log =
      (resourceName flowID, w.minted, if config.Expiry = 0 then 15 * Second else config.Expiry)
        :: setsOf w.log ∧
    (((storeLocker margin config).Lock (ctxRef c) flowID w).1.1.isSome = true →
      getLease (resourceName flowID) ((storeLocker margin config).Lock (ctxRef c) flowID w).2.leases
        = some ⟨w.minted, w.now + (if config.Expiry = 0 then 15 * Second else config.Expiry)⟩) := by
  refine ⟨fun σ redsyncNew => NewRedisLocker_expiry redsyncNew config, by decide, ?_, ?_, ?_⟩
  · intro σ redsyncNew ctx s hctx
    rw [← NewRedisLocker_expiry redsyncNew config]
    exact Lock_world _ ctx flowID s hctx
  · rw [storeLocker_eq, Lock_sets margin _ c flowID w hc, storeLocker_expiry]
  · rw [storeLocker_eq, storeLocker_expiry]
    intro hsome
    cases hres : (RedisLocker.mk (storeRedsync margin)
        (if config.Expiry = 0 then 15 * Second else config.Expiry)).Lock (ctxRef c) flowID w with
    | mk out w1 =>
      obtain ⟨ho, herr⟩ := out
      rw [hres] at hsome
      cases ho with
      | none => simp at hsome
      | some h =>
        rcases Bool.eq_false_or_eq_true w.reachable with hr | hr
        · by_cases hms : Millisecond ≤ (if config.Expiry = 0 then 15 * Second else config.Expiry)
          · cases hl : liveLease w.now w.leases (resourceName flowID) with
            | some l => simp [Lock_busy margin _ c flowID w l hc hr hms hl] at hres
            | none =>
              by_cases hm : margin < (if config.Expiry = 0 then 15 * Second else config.Expiry)
              · rw [Lock_acquired margin _ c flowID w hc hr hms hl hm] at hres
                have hw1 := (Prod.mk.inj hres).2
                rw [← hw1]
                exact getLease_put_same _ _ _
              · simp [Lock_rejected margin _ c flowID w hc hr hms hl hm] at hres
          · simp [Lock_invalid margin _ c flowID w hc hr hms] at hres
        · simp [Lock_unreachable margin _ c flowID w hc hr] at hres

/-- Witness for C2: the zero configuration on the empty world. -/
theorem C2_lease_duration_witness :
    getDone 0 World.empty.done = none ∧
    setsOf ((storeLocker 0 (sampleConfig 0)).Lock (ctxRef 0) uuidZero World.empty).2.log =
      (resourceName uuidZero, World.empty.minted,
        if (sampleConfig 0).Expiry = 0 then 15 * Second else (sampleConfig 0).Expiry)
        :: setsOf World.empty.log :=
  ⟨rfl, (C2_lease_duration 0 (sampleConfig 0) 0 uuidZero World.empty rfl).2.2.2.1⟩

/-- C3: mutual exclusion over the store.  Start from the empty world and let any
interleaving `pre` of locks, releases, clock ticks, cancellations and outages happen;
let a `Lock` on a flow then succeed; let any interleaving `post` follow in which that
lock's release handle is not invoked, ending before the lease expires.  Then the store
still holds that lock's lease, no other mutex object carries its token (so no other
handle can delete it), and any `Lock` on the same flow, through any locker and with any
context, returns an error and no release handle. -/
theorem C3_mutual_exclusion (margin : Duration) (pre post : List Event)
    (config config2 : RedisLockerConfig) (c c2 : Nat) (flowID : UUID) (h : Release World)
    (w1 : World)
    (hlock : (storeLocker margin config).Lock (ctxRef c) flowID (run margin pre World.empty)
      = ((some h, none), w1))
    (hrel : ∀ e ∈ post, e.releases (run margin pre World.empty).mutexes.length = false)
    (hexp : (run margin post w1).now < w1.now + (storeLocker margin config).expiry) :
    h = unlockClosure (storeRedsync margin) (run margin pre World.empty).mutexes.length ∧
    liveLease (run margin post w1).now (run margin post w1).leases (resourceName flowID)
      = some ⟨(run margin pre World.empty).minted, w1.now + (storeLocker margin config).expiry⟩ ∧
    (∀ (j : Nat) (mu : Mutex), (run margin post w1).mutexes[j]? = some mu →
      j ≠ (run margin pre World.empty).mutexes.length →
        mu.value ≠ some (run margin pre World.empty).minted) ∧
    ((storeLocker margin config2).Lock (ctxRef c2) flowID (run margin post w1)).1.1 = none ∧
    (((storeLocker margin config2).Lock (ctxRef c2) flowID (run margin post w1)).1.2).isSome
      = true := by
  rw [storeLocker_eq] at hlock
  obtain ⟨-, -, -, -, -, hh, hw1⟩ := Lock_success margin _ c flowID _ w1 h hlock
  have hminted := TokensMinted_run margin pre World.empty TokensMinted_empty
  have hnow : w1.now = (run margin pre World.empty).now := by rw [hw1]
  have hheld : Held (resourceName flowID) (run margin pre World.empty).minted
      (w1.now + (storeLocker margin config).expiry)
      (run margin pre World.empty).mutexes.length w1 := by
    refine ⟨?_, ?_, ?_⟩
    · rw [hnow, hw1]
      exact getLease_put_same _ _ _
    · rw [hw1]
      exact Nat.lt_succ_self _
    · intro j mu hj hjm
      rw [hw1] at hj
      rcases heap_get_append _ _ _ _ hj with hold | ⟨hjl, -⟩
      · intro hv
        exact absurd (hminted j mu _ hold hv) (Nat.lt_irrefl _)
      · exact absurd hjl hjm
  have hfin := Held_run margin _ _ _ _ post w1 hheld hrel hexp
  have hlive := liveLease_of_get _ _ _ _ hfin.1 hexp
  refine ⟨hh, hlive, hfin.2.2, ?_⟩
  rw [storeLocker_eq margin config2]
  exact Lock_of_live margin _ c2 flowID _ _ hlive

/-- Witness for C3: the first caller holds `uuidZero`; after the sample interleaving a
third caller is refused. -/
theorem C3_mutual_exclusion_witness :
    ((storeLocker 0 (sampleConfig 0)).Lock (ctxRef 9) uuidZero (run 0 samplePost sampleHeld)).1.1
      = none ∧
    (((storeLocker 0 (sampleConfig 0)).Lock (ctxRef 9) uuidZero
      (run 0 samplePost sampleHeld)).1.2).isSome = true :=
  (C3_mutual_exclusion 0 [] samplePost (sampleConfig 0) (sampleConfig 0) 0 9 uuidZero
    (unlockClosure (storeRedsync 0) 0) sampleHeld rfl (by decide) (by decide)).2.2.2

/-- C5: the handle a successful `Lock` returns is the release closure over the mutex it
created, whatever the library.  Invoked with any context in any world, it returns nil
exactly when `UnlockContext` on that mutex reports ok = true and a nil error; in every
other case it returns an error whose message starts with "failed to release lock" and
which wraps the underlying error when there is one; the world is the one `UnlockContext`
left. -/
theorem C5_release_result (σ : Type) (r : RedisLocker σ) (ctx0 : Context σ) (flowID : UUID)
    (s0 s1 : σ) (h : Release σ) (ctx : Context σ) (s : σ)
    (hlock : r.Lock ctx0 flowID s0 = ((some h, none), s1)) :
    ((h ctx s).1 = none ↔
      ((r.rs.UnlockContext ctx (r.rs.NewMutex ("flow:lock:" ++ flowID.String)
          [MutexOption.WithExpiry r.expiry, MutexOption.WithTries 1] s0).1 s).1.1 = true ∧
        (r.rs.UnlockContext ctx (r.rs.NewMutex ("flow:lock:" ++ flowID.String)
          [MutexOption.WithExpiry r.expiry, MutexOption.WithTries 1] s0).1 s).1.2 = none)) ∧
    ((h ctx s).1 = none ∨
      ((h ctx s).1 = some (Errorf "failed to release lock: "
          (r.rs.UnlockContext ctx (r.rs.NewMutex ("flow:lock:" ++ flowID.String)
            [MutexOption.WithExpiry r.expiry, MutexOption.WithTries 1] s0).1 s).1.2) ∧
        (∃ rest, (Errorf "failed to release lock: "
          (r.rs.UnlockContext ctx (r.rs.NewMutex ("flow:lock:" ++ flowID.String)
            [MutexOption.WithExpiry r.expiry, MutexOption.WithTries 1] s0).1 s).1.2).message
              = "failed to release lock" ++ rest) ∧
        (∀ u, (r.rs.UnlockContext ctx (r.rs.NewMutex ("flow:lock:" ++ flowID.String)
            [MutexOption.WithExpiry r.expiry, MutexOption.WithTries 1] s0).1 s).1.2 = some u →
          (Errorf "failed to release lock: "
            (r.rs.UnlockContext ctx (r.rs.NewMutex ("flow:lock:" ++ flowID.String)
              [MutexOption.WithExpiry r.expiry, MutexOption.WithTries 1] s0).1 s).1.2).unwrap
                = some u))) ∧
    (h ctx s).2 = (r.rs.UnlockContext ctx (r.rs.NewMutex ("flow:lock:" ++ flowID.String)
      [MutexOption.WithExpiry r.expiry, MutexOption.WithTries 1] s0).1 s).2 := by
  rw [Lock_handle r ctx0 flowID s0 s1 h hlock]
  generalize (r.rs.NewMutex ("flow:lock:" ++ flowID.String)
    [MutexOption.WithExpiry r.expiry, MutexOption.WithTries 1] s0).1 = mutex
  rw [unlockClosure_eq]
  generalize r.rs.UnlockContext ctx mutex s = res
  obtain ⟨⟨ok, err⟩, s2⟩ := res
  refine ⟨?_, ?_, rfl⟩
  · cases ok <;> cases err <;> simp
  · by_cases hok : ok = true ∧ err = none
    · left
      simp [hok]
    · right
      refine ⟨by simp [hok], Errorf_release_message err, ?_⟩
      intro u hu
      simp only at hu
      rw [hu]
      rfl

/-- Witness for C5: the handle of the lock on the empty world, invoked on the world that
lock left: it returns nil, and the store's `UnlockContext` reports ok = true, no error. -/
theorem C5_release_result_witness :
    (storeLocker 0 (sampleConfig 0)).Lock (ctxRef 0) uuidZero World.empty
      = ((some (unlockClosure (storeRedsync 0) 0), none), sampleHeld) ∧
    ((unlockClosure (storeRedsync 0) 0 (ctxRef 1) sampleHeld).1 = none ↔
      ((storeUnlockContext (ctxRef 1) 0 sampleHeld).1.1 = true ∧
        (storeUnlockContext (ctxRef 1) 0 sampleHeld).1.2 = none)) :=
  ⟨rfl, (C5_release_result World (storeLocker 0 (sampleConfig 0)) (ctxRef 0) uuidZero World.empty
    sampleHeld (unlockClosure (storeRedsync 0) 0) (ctxRef 1) sampleHeld rfl).1⟩

/-- C7: the release handle does not depend on the context `Lock` was called with.  Over
the store, canceling that context after `Lock` has succeeded leaves the leases alone,
and the handle invoked with any other context gives the same result and the same world
as without the cancellation; and a `Lock` called with another context in the same world
returns the very same handle. -/
theorem C7_lock_context_irrelevant (margin : Duration) (config : RedisLockerConfig)
    (c c2 c3 : Nat) (flowID : UUID) (w w1 w2 : World) (h h2 : Release World) (e : Error)
    (hlock : (storeLocker margin config).Lock (ctxRef c) flowID w = ((some h, none), w1))
    (hlock2 : (storeLocker margin config).Lock (ctxRef c2) flowID w = ((some h2, none), w2))
    (hne : c3 ≠ c) :
    (cancelCtx c e w1).leases = w1.leases ∧
    (h (ctxRef c3) (cancelCtx c e w1)).1 = (h (ctxRef c3) w1).1 ∧
    (h (ctxRef c3) (cancelCtx c e w1)).2 = cancelCtx c e (h (ctxRef c3) w1).2 ∧
    h2 = h ∧ w2 = w1 := by
  rw [storeLocker_eq] at hlock hlock2
  obtain ⟨-, -, -, -, -, hh, hw1⟩ := Lock_success margin _ c flowID w w1 h hlock
  obtain ⟨-, -, -, -, -, hh2, hw2⟩ := Lock_success margin _ c2 flowID w w2 h2 hlock2
  refine ⟨?_, ?_, ?_, by rw [hh, hh2], by rw [hw1, hw2]⟩
  · unfold cancelCtx
    split <;> rfl
  · rw [hh, unlock_cancel_commute margin _ c c3 e w1 hne]
  · rw [hh, unlock_cancel_commute margin _ c c3 e w1 hne]

/-- Witness for C7: lock with context 0, cancel it, release with context 1. -/
theorem C7_lock_context_irrelevant_witness :
    (1 : Nat) ≠ 0 ∧
    ((unlockClosure (storeRedsync 0) 0) (ctxRef 1) (cancelCtx 0 Error.canceled sampleHeld)).1
      = ((unlockClosure (storeRedsync 0) 0) (ctxRef 1) sampleHeld).1 :=
  ⟨by decide,
    (C7_lock_context_irrelevant 0 (sampleConfig 0) 0 5 1 uuidZero World.empty sampleHeld
      sampleHeld (unlockClosure (storeRedsync 0) 0) (unlockClosure (storeRedsync 0) 0)
      Error.canceled rfl rfl (by decide)).2.1⟩

/-- C8: with a live context `Lock` creates one mutex with the option tries = 1 and calls
`LockContext` on it once, whatever the library: the world `Lock` leaves is the world
that call left, the error `Lock` returns is that call's error itself (nil when it
succeeded), a handle is returned exactly when that call returned nil, and so `Lock`
returns a handle with a nil error exactly when that call returned nil.  Over the store,
where the mutex makes as many attempts as `tries` allows, exactly one `trySet` is sent. -/
theorem C8_single_attempt (σ : Type) (r : RedisLocker σ) (ctx : Context σ) (flowID : UUID)
    (s : σ) (hc : ctx.Err s = none) :
    (r.Lock ctx flowID s).2 =
      (r.rs.LockContext ctx
        (r.rs.NewMutex ("flow:lock:" ++ flowID.String)
          [MutexOption.WithExpiry r.expiry, MutexOption.WithTries 1] s).1
        (r.rs.NewMutex ("flow:lock:" ++ flowID.String)
          [MutexOption.WithExpiry r.expiry, MutexOption.WithTries 1] s).2).2 ∧
    (r.Lock ctx flowID s).1.2 =
      (r.rs.LockContext ctx
        (r.rs.NewMutex ("flow:lock:" ++ flowID.String)
          [MutexOption.WithExpiry r.expiry, MutexOption.WithTries 1] s).1
        (r.rs.NewMutex ("flow:lock:" ++ flowID.String)
          [MutexOption.WithExpiry r.expiry, MutexOption.WithTries 1] s).2).1 ∧
    ((r.Lock ctx flowID s).1.1.isSome = true ↔
      (r.rs.LockContext ctx
        (r.rs.NewMutex ("flow:lock:" ++ flowID.String)
          [MutexOption.WithExpiry r.expiry, MutexOption.WithTries 1] s).1
        (r.rs.NewMutex ("flow:lock:" ++ flowID.String)
          [MutexOption.WithExpiry r.expiry, MutexOption.WithTries 1] s).2).1 = none) ∧
    (((r.Lock ctx flowID s).1.1.isSome = true ∧ (r.Lock ctx flowID s).1.2 = none) ↔
      (r.rs.LockContext ctx
        (r.rs.NewMutex ("flow:lock:" ++ flowID.String)
          [MutexOption.WithExpiry r.expiry, MutexOption.WithTries 1] s).1
        (r.rs.NewMutex ("flow:lock:" ++ flowID.String)
          [MutexOption.WithExpiry r.expiry, MutexOption.WithTries 1] s).2).1 = none) ∧
    (∀ (margin : Duration) (config : RedisLockerConfig) (c : Nat) (w : World),
      getDone c w.done = none →
        (setsOf ((storeLocker margin config).Lock (ctxRef c) flowID w).2.log).length
          = (setsOf w.log).length + 1) := by
  unfold RedisLocker.Lock
  simp only [hc]
  cases hl : r.rs.LockContext ctx
      (r.rs.NewMutex ("flow:lock:" ++ flowID.String)
        [MutexOption.WithExpiry r.expiry, MutexOption.WithTries 1] s).1
      (r.rs.NewMutex ("flow:lock:" ++ flowID.String)
        [MutexOption.WithExpiry r.expiry, MutexOption.WithTries 1] s).2 with
  | mk res s2 =>
    have hsets : ∀ (margin : Duration) (config : RedisLockerConfig) (c : Nat) (w : World),
        getDone c w.done = none →
          (setsOf ((storeLocker margin config).Lock (ctxRef c) flowID w).2.log).length
            = (setsOf w.log).length + 1 := by
      intro margin config c w hcw
      rw [storeLocker_eq, Lock_sets margin _ c flowID w hcw]
      rfl
    cases res with
    | some e => exact ⟨rfl, rfl, by simp, by simp, hsets⟩
    | none => exact ⟨rfl, rfl, by simp, by simp, hsets⟩

/-- Witness for C8: a live context on the empty world. -/
theorem C8_single_attempt_witness :
    (ctxRef 0).Err World.empty = none ∧
    (setsOf ((storeLocker 0 (sampleConfig 0)).Lock (ctxRef 0) uuidZero World.empty).2.log).length
      = (setsOf World.empty.log).length + 1 :=
  ⟨rfl, (C8_single_attempt World (storeLocker 0 (sampleConfig 0)) (ctxRef 0) uuidZero World.empty
    rfl).2.2.2.2 0 (sampleConfig 0) 0 World.empty rfl⟩

/-- C9, as the code behaves: for a configuration whose expiry is not negative the lease
duration of the locker is strictly positive, whatever the library, and so is the TTL of
the `trySet` a `Lock` sends to the store. -/
theorem C9_lease_duration_positive (σ : Type) (redsyncNew : Pool → Redsync σ)
    (config : RedisLockerConfig) (margin : Duration) (c : Nat) (flowID : UUID) (w : World)
    (hnn : 0 ≤ config.Expiry) (hc : getDone c w.done = none) :
    0 < (NewRedisLocker redsyncNew config).expiry ∧
    setsOf ((storeLocker margin config).Lock (ctxRef c) flowID w).2.log
      = (resourceName flowID, w.minted, (storeLocker margin config).expiry) :: setsOf w.log ∧
    0 < (storeLocker margin config).expiry := by
  have hpos : (0 : Int) < (if config.Expiry = 0 then 15 * Second else config.Expiry) := by
    by_cases hz : config.Expiry = 0
    · rw [if_pos hz]
      decide
    · rw [if_neg hz]
      exact lt_of_le_of_ne hnn (Ne.symm hz)
  refine ⟨?_, ?_, ?_⟩
  · rw [NewRedisLocker_expiry]
    exact hpos
  · rw [storeLocker_eq, Lock_sets margin _ c flowID w hc]
  · rw [storeLocker_expiry]
    exact hpos

/-- Witness for C9 as amended: an expiry of one nanosecond. -/
theorem C9_lease_duration_positive_witness :
    (0 : Int) ≤ (sampleConfig 1).Expiry ∧
    0 < (NewRedisLocker (fun _ => storeRedsync 0) (sampleConfig 1)).expiry :=
  ⟨by decide, (C9_lease_duration_positive World (fun _ => storeRedsync 0) (sampleConfig 1) 0 0
    uuidZero World.empty (by decide) rfl).1⟩

/-- C9 refuted as stated: a configuration with expiry -1 gives a locker whose lease
duration is -1, and the `trySet` its `Lock` sends carries the TTL -1. -/
theorem C9_negative_expiry_counterexample :
    (NewRedisLocker (fun _ => storeRedsync 0) (sampleConfig (-1))).expiry = -1 ∧
    ¬ 0 < (NewRedisLocker (fun _ => storeRedsync 0) (sampleConfig (-1))).expiry ∧
    setsOf ((storeLocker 0 (sampleConfig (-1))).Lock (ctxRef 0) uuidZero World.empty).2.log
      = [(resourceName uuidZero, 0, -1)] := by
  refine ⟨by decide, by decide, ?_⟩
  rw [storeLocker_eq, Lock_sets 0 _ 0 uuidZero World.empty rfl]
  rfl

/-- C10: the key `Lock` hands to the store is "flow:lock:" followed by the canonical
string of the flow identifier (it is the key of the `trySet` the store receives); the key
is never empty; the same flow always gets the same key and different flows get
different keys. -/
theorem C10_resource_name_injective (margin : Duration) (config : RedisLockerConfig) (c : Nat)
    (w : World) (a b : UUID) (hc : getDone c w.done = none) :
    (setsOf ((storeLocker margin config).Lock (ctxRef c) a w).2.log).map (fun x => x.1)
      = ("flow:lock:" ++ a.String) :: (setsOf w.log).map (fun x => x.1) ∧
    resourceName a = "flow:lock:" ++ a.String ∧
    resourceName a ≠ "" ∧
    (resourceName a = resourceName b ↔ a = b) := by
  refine ⟨?_, rfl, ?_, ?_, ?_⟩
  · rw [storeLocker_eq, Lock_sets margin _ c a w hc]
    rfl
  · intro h
    have h1 := congrArg String.length h
    simp [resourceName, String.length_append] at h1
    exact absurd h1.1 (by decide)
  · intro h
    exact UUID_String_inj a b (string_append_left_cancel _ _ _ h)
  · intro h
    rw [h]

/-- Witness for C10: two different flow identifiers on the empty world. -/
theorem C10_resource_name_injective_witness :
    getDone 0 World.empty.done = none ∧
    (resourceName uuidZero = resourceName uuidOne ↔ uuidZero = uuidOne) ∧
    resourceName uuidZero = "flow:lock:00000000-0000-0000-0000-000000000000" :=
  ⟨rfl, (C10_resource_name_injective 0 (sampleConfig 0) 0 World.empty uuidZero uuidOne rfl).2.2.2,
    by decide⟩

end FlowLocker
